import Mathlib

/-! Verification of the event-routing and delivery-coordination core of
`pal_ALONE.py` (a live-stream narration bot).

Modelling conventions:
- Python floats (timestamps, scores, thresholds) are modelled as exact
  rationals `ℚ`; the code only adds, subtracts, multiplies and compares
  these quantities, so IEEE rounding is abstracted away.
- Python `str` is modelled as Lean `String`; `str.strip()` as `String.trim`,
  `str.lower()` via `Char.toLower`, substring tests (`a in b`) via
  `List.isInfixOf` on the character lists.
- `time.time()` values are explicit `now` parameters.
- The `sha1` hex digest used for event fingerprints is modelled by its
  pre-image string (the digest is a fixed injective-in-practice encoding and
  the deduplication logic depends only on equality of fingerprints).
- Stateful `async` coroutines become pure state-passing functions; the
  non-reentrant `asyncio.Lock` inside `TokenBucket.take` is modelled
  explicitly as a small-step transition relation.
-/

/-! ## Deduplicator (`EventDeduper`, pal_ALONE.py lines 204-220)

The `OrderedDict` store is modelled as an insertion-ordered association list
`List (String × ℚ)` mapping fingerprint to expiry timestamp. New entries are
appended at the end; `popitem(last=False)` removes the head, i.e. the
earliest-inserted entry. -/

/-- The lazy purge at the start of `EventDeduper.seen`: Python removes every
entry whose value satisfies `v < now`, keeping the rest in order. -/
def dedupPurge (now : ℚ) (store : List (String × ℚ)) : List (String × ℚ) :=
  store.filter (fun kv => !(decide (kv.2 < now)))

/-- `EventDeduper.seen(signature)`: purge expired entries; if the signature is
present return `true`; otherwise insert it with expiry `now + ttl` and, if the
store then exceeds 5000 entries, evict the earliest-inserted entry
(`popitem(last=False)`); return `false`. Returns the result together with the
updated store. -/
def EventDeduper.seen (ttl now : ℚ) (store : List (String × ℚ)) (sig : String) :
    Bool × List (String × ℚ) :=
  let purged := dedupPurge now store
  if purged.any (fun kv => kv.1 == sig) then
    (true, purged)
  else
    let inserted := purged ++ [(sig, now + ttl)]
    if 5000 < inserted.length then (false, inserted.drop 1) else (false, inserted)

/-- Membership in the purged store. -/
lemma mem_dedupPurge {now : ℚ} {store : List (String × ℚ)} {kv : String × ℚ} :
    kv ∈ dedupPurge now store ↔ kv ∈ store ∧ ¬ kv.2 < now := by
  simp [dedupPurge]

/-- The duplicate test in `seen` finds exactly the fingerprints present in the
purged store. -/
lemma dedup_any_iff {l : List (String × ℚ)} {sig : String} :
    (l.any (fun kv => kv.1 == sig)) = true ↔ ∃ kv ∈ l, kv.1 = sig := by
  simp [List.any_eq_true]

/-- When the fingerprint is present after purging, `seen` returns `true` and
the store is just the purged store. -/
lemma seen_of_present (ttl : ℚ) {now : ℚ} {store : List (String × ℚ)} {sig : String}
    (h : ∃ kv ∈ dedupPurge now store, kv.1 = sig) :
    EventDeduper.seen ttl now store sig = (true, dedupPurge now store) := by
  unfold EventDeduper.seen
  rw [if_pos (dedup_any_iff.mpr h)]

/-- When the fingerprint is absent after purging, `seen` returns `false`, the
new entry `(sig, now + ttl)` is in the resulting store, and the resulting
store is contained in the purged store extended by the new entry. -/
lemma seen_of_absent (ttl : ℚ) {now : ℚ} {store : List (String × ℚ)} {sig : String}
    (h : ¬ ∃ kv ∈ dedupPurge now store, kv.1 = sig) :
    (EventDeduper.seen ttl now store sig).1 = false ∧
      (sig, now + ttl) ∈ (EventDeduper.seen ttl now store sig).2 ∧
      (EventDeduper.seen ttl now store sig).2 ⊆
        dedupPurge now store ++ [(sig, now + ttl)] := by
  unfold EventDeduper.seen
  rw [if_neg (by simpa [dedup_any_iff] using h)]
  by_cases hlen : 5000 < (dedupPurge now store ++ [(sig, now + ttl)]).length
  · rw [if_pos hlen]
    have hpos : 1 ≤ (dedupPurge now store).length := by
      have := hlen
      simp only [List.length_append, List.length_singleton] at this
      omega
    refine ⟨rfl, ?_, ?_⟩
    · rw [List.drop_append_of_le_length hpos]
      exact List.mem_append_right _ (by simp)
    · exact List.drop_subset _ _
  · rw [if_neg hlen]
    exact ⟨rfl, List.mem_append_right _ (by simp), fun _ h => h⟩

/-- C1: for a fingerprint the deduper has not seen, two `seen` calls in a row
within the TTL return `false` then `true`, and a third call made after the TTL
has elapsed returns `false` again. Call times are `t0 ≤ t1 ≤ t0 + ttl` for the
first two calls and `t2 > t0 + ttl` for the third. -/
theorem C1_seen_false_true_false (ttl t0 t1 t2 : ℚ) (store : List (String × ℚ))
    (sig : String)
    (hfresh : ∀ kv ∈ store, kv.1 ≠ sig)
    (h01 : t0 ≤ t1) (h1ttl : t1 ≤ t0 + ttl) (h2 : t0 + ttl < t2) :
    (EventDeduper.seen ttl t0 store sig).1 = false ∧
      (EventDeduper.seen ttl t1 (EventDeduper.seen ttl t0 store sig).2 sig).1 = true ∧
      (EventDeduper.seen ttl t2
        (EventDeduper.seen ttl t1 (EventDeduper.seen ttl t0 store sig).2 sig).2 sig).1
        = false := by
  have habsent : ¬ ∃ kv ∈ dedupPurge t0 store, kv.1 = sig := by
    rintro ⟨kv, hmem, hkey⟩
    exact hfresh kv (mem_dedupPurge.mp hmem).1 hkey
  obtain ⟨hr0, hmem0, hsub0⟩ := seen_of_absent ttl habsent
  -- every entry of the first resulting store carrying the fingerprint is the
  -- freshly inserted one, with expiry t0 + ttl
  have honly : ∀ kv ∈ (EventDeduper.seen ttl t0 store sig).2,
      kv.1 = sig → kv.2 = t0 + ttl := by
    intro kv hkv hkey
    rcases List.mem_append.mp (hsub0 hkv) with hin | hin
    · exact absurd hkey (hfresh kv (mem_dedupPurge.mp hin).1)
    · simp only [List.mem_singleton] at hin
      rw [hin]
  -- second call: the inserted entry survives the purge at t1
  have hpresent1 : ∃ kv ∈ dedupPurge t1 (EventDeduper.seen ttl t0 store sig).2,
      kv.1 = sig := by
    refine ⟨(sig, t0 + ttl), mem_dedupPurge.mpr ⟨hmem0, ?_⟩, rfl⟩
    exact not_lt.mpr h1ttl
  have hcall1 := seen_of_present ttl hpresent1
  -- third call: the entry has expired at t2, and no other entry has the key
  have habsent2 : ¬ ∃ kv ∈ dedupPurge t2 (EventDeduper.seen ttl t1
      (EventDeduper.seen ttl t0 store sig).2 sig).2, kv.1 = sig := by
    rintro ⟨kv, hmem, hkey⟩
    rw [hcall1] at hmem
    obtain ⟨hmem2, hlive⟩ := mem_dedupPurge.mp hmem
    obtain ⟨hmem1, _⟩ := mem_dedupPurge.mp hmem2
    have := honly kv hmem1 hkey
    exact hlive (this ▸ h2)
  refine ⟨hr0, ?_, (seen_of_absent ttl habsent2).1⟩
  rw [hcall1]

/-- Witness for C1 at a concrete input: fresh store, ttl 600, calls at times
0, 10 and 601. -/
theorem C1_seen_false_true_false_witness :
    ((∀ kv ∈ ([] : List (String × ℚ)), kv.1 ≠ "f") ∧
      (0 : ℚ) ≤ 10 ∧ (10 : ℚ) ≤ 0 + 600 ∧ (0 : ℚ) + 600 < 601) ∧
    ((EventDeduper.seen 600 0 [] "f").1 = false ∧
      (EventDeduper.seen 600 10 (EventDeduper.seen 600 0 [] "f").2 "f").1 = true ∧
      (EventDeduper.seen 600 601
        (EventDeduper.seen 600 10 (EventDeduper.seen 600 0 [] "f").2 "f").2 "f").1
        = false) :=
  ⟨⟨by simp, by norm_num, by norm_num, by norm_num⟩,
    C1_seen_false_true_false 600 0 10 601 [] "f" (by simp) (by norm_num)
      (by norm_num) (by norm_num)⟩

/-- C8: a `seen` call on a store of at most 5000 entries leaves at most 5000
entries, and when an insertion overflows the cap the entry evicted is the head
of the (purged) store, i.e. the earliest-inserted entry: the resulting store
is the purged store minus its head, with the new entry appended. -/
theorem C8_seen_capacity (ttl now : ℚ) (store : List (String × ℚ)) (sig : String)
    (hcap : store.length ≤ 5000) :
    (EventDeduper.seen ttl now store sig).2.length ≤ 5000 ∧
      ((¬ ∃ kv ∈ dedupPurge now store, kv.1 = sig) →
        5000 < (dedupPurge now store).length + 1 →
        (EventDeduper.seen ttl now store sig).2 =
          (dedupPurge now store).drop 1 ++ [(sig, now + ttl)]) := by
  have hple : (dedupPurge now store).length ≤ 5000 :=
    le_trans (List.length_filter_le _ _) hcap
  constructor
  · unfold EventDeduper.seen
    by_cases hany : ((dedupPurge now store).any (fun kv => kv.1 == sig)) = true
    · rw [if_pos hany]
      exact hple
    · rw [if_neg hany]
      by_cases hlen : 5000 < (dedupPurge now store ++ [(sig, now + ttl)]).length
      · rw [if_pos hlen]
        simp only [List.length_drop, List.length_append, List.length_singleton]
        omega
      · rw [if_neg hlen]
        simp only [List.length_append, List.length_singleton] at hlen ⊢
        omega
  · intro habsent hover
    unfold EventDeduper.seen
    rw [if_neg (by simpa [dedup_any_iff] using habsent)]
    rw [if_pos (by simpa using hover)]
    have hpos : 1 ≤ (dedupPurge now store).length := by omega
    rw [List.drop_append_of_le_length hpos]

/-- Witness for C8 at a concrete input: one-entry store. -/
theorem C8_seen_capacity_witness :
    (([("g", (5 : ℚ))] : List (String × ℚ)).length ≤ 5000) ∧
    ((EventDeduper.seen 600 0 [("g", (5 : ℚ))] "f").2.length ≤ 5000 ∧
      ((¬ ∃ kv ∈ dedupPurge 0 [("g", (5 : ℚ))], kv.1 = "f") →
        5000 < (dedupPurge 0 [("g", (5 : ℚ))]).length + 1 →
        (EventDeduper.seen 600 0 [("g", (5 : ℚ))] "f").2 =
          (dedupPurge 0 [("g", (5 : ℚ))]).drop 1 ++ [("f", 0 + 600)])) :=
  ⟨by norm_num, C8_seen_capacity 600 0 [("g", (5 : ℚ))] "f" (by norm_num)⟩

/-! ## TokenBucket (`TokenBucket.take`, pal_ALONE.py lines 441-458)

`take` runs entirely inside `async with self._lock`. When fewer than one
token is available it sleeps and then calls `await self.take()` again - while
the same task still holds the non-reentrant `asyncio.Lock`. The model below
makes the lock explicit: a `take` execution is a sequence of configurations,
and acquiring the lock requires it to be free. There is exactly one task in
the model (the lock can only be held by the task itself), which is the most
favourable case for the code. -/

/-- Refill computation at the top of `take`:
`self.tokens = min(self.capacity, self.tokens + elapsed * self.rate)`. -/
def refillTokens (capacity rate tokens updated now : ℚ) : ℚ :=
  min capacity (tokens + (now - updated) * rate)

/-- Control position of a single `take` execution. -/
inductive TakePhase where
  /-- about to execute `async with self._lock` (initial call or the recursive
  `await self.take()` after the sleep) -/
  | tryAcquire : TakePhase
  /-- lock acquired, about to refill and branch on the token count -/
  | locked : TakePhase
  /-- inside `await asyncio.sleep(dur)` with the lock still held -/
  | sleeping : (dur : ℚ) → TakePhase
  /-- `self.tokens -= 1.0` done, lock released, call returned -/
  | done : TakePhase
  deriving DecidableEq

/-- Configuration of a `take` execution: control position, whether the bucket
lock is held, the two bucket fields and the current time. -/
structure TakeState where
  phase : TakePhase
  lockHeld : Bool
  tokens : ℚ
  updated : ℚ
  now : ℚ
  deriving DecidableEq

/-- Small-step semantics of `TokenBucket.take`. `acquire` needs the lock to be
free, as `asyncio.Lock` is not reentrant. `grant` is the sufficient-tokens
branch (consume one token, release the lock, return). `insufficient` is the
`tokens < 1.0` branch: it stores the refilled count, computes
`need = (1.0 - tokens) / rate` and sleeps `max(0.01, need)`. `wake` finishes
the sleep, advancing the clock, and re-enters `take` at `tryAcquire` with the
lock still held. -/
inductive TakeStep (capacity rate : ℚ) : TakeState → TakeState → Prop where
  | acquire (s : TakeState) (hp : s.phase = .tryAcquire) (h : s.lockHeld = false) :
      TakeStep capacity rate s { s with phase := .locked, lockHeld := true }
  | grant (s : TakeState) (hp : s.phase = .locked)
      (h : 1 ≤ refillTokens capacity rate s.tokens s.updated s.now) :
      TakeStep capacity rate s
        { s with phase := .done, lockHeld := false,
                 tokens := refillTokens capacity rate s.tokens s.updated s.now - 1,
                 updated := s.now }
  | insufficient (s : TakeState) (hp : s.phase = .locked)
      (h : refillTokens capacity rate s.tokens s.updated s.now < 1) :
      TakeStep capacity rate s
        { s with phase := .sleeping
                   (max (1/100)
                     ((1 - refillTokens capacity rate s.tokens s.updated s.now) / rate)),
                 tokens := refillTokens capacity rate s.tokens s.updated s.now,
                 updated := s.now }
  | wake (s : TakeState) (d : ℚ) (hp : s.phase = .sleeping d) :
      TakeStep capacity rate s { s with phase := .tryAcquire, now := s.now + d }

/-- A configuration trying to re-acquire the already-held lock is stuck: no
rule applies, so the caller never returns. -/
lemma takeStep_stuck {capacity rate : ℚ} {s : TakeState}
    (hp : s.phase = .tryAcquire) (hl : s.lockHeld = true) :
    ∀ t, ¬ TakeStep capacity rate s t := by
  intro t hstep
  cases hstep with
  | acquire hp2 h => rw [hl] at h; exact Bool.noConfusion h
  | grant hp2 h => rw [hp] at hp2; exact TakePhase.noConfusion hp2
  | insufficient hp2 h => rw [hp] at hp2; exact TakePhase.noConfusion hp2
  | wake d hp2 => rw [hp] at hp2; exact TakePhase.noConfusion hp2

/-- C2 (refuted by the code): a `take` call on a bucket with capacity 20,
rate 1/3 tokens per second and an empty token store deadlocks instead of
blocking until refill: it acquires the lock, finds 0 tokens, sleeps 3 seconds
with the lock still held, and then re-enters `take`, where the acquisition of
its own non-reentrant lock can never succeed - the resulting configuration has
no successor, so the caller never obtains a token. -/
theorem C2_take_deadlock :
    TakeStep 20 (1/3) ⟨.tryAcquire, false, 0, 0, 0⟩ ⟨.locked, true, 0, 0, 0⟩ ∧
    TakeStep 20 (1/3) ⟨.locked, true, 0, 0, 0⟩ ⟨.sleeping 3, true, 0, 0, 0⟩ ∧
    TakeStep 20 (1/3) ⟨.sleeping 3, true, 0, 0, 0⟩ ⟨.tryAcquire, true, 0, 0, 3⟩ ∧
    ∀ t, ¬ TakeStep 20 (1/3) ⟨.tryAcquire, true, 0, 0, 3⟩ t := by
  refine ⟨TakeStep.acquire _ rfl rfl, ?_, ?_, takeStep_stuck rfl rfl⟩
  · have hr : refillTokens 20 (1/3) 0 0 0 = 0 := by norm_num [refillTokens]
    have hd : max ((1:ℚ)/100) ((1 - refillTokens 20 (1/3) 0 0 0) / (1/3)) = 3 := by
      rw [hr]; norm_num
    have h1 := @TakeStep.insufficient 20 (1/3)
      ⟨.locked, true, 0, 0, 0⟩ rfl (by rw [hr]; norm_num)
    rw [hd] at h1
    rw [hr] at h1
    exact h1
  · have := @TakeStep.wake 20 (1/3)
      ⟨.sleeping 3, true, 0, 0, 0⟩ 3 rfl
    simpa using this

/-! ## MicState hysteresis (`MicrophoneMonitor._callback`, pal_ALONE.py
lines 516-541, and `MicState`, lines 172-197)

Each audio block is reduced to one RMS sample; the model takes the stream of
`(timestamp, rms)` pairs directly. `mic.mark_active` / `mic.mark_idle` only
toggle the boolean `_active`, so `MicState` is modelled as that boolean inside
the monitor state. -/

/-- Mutable state of `MicrophoneMonitor` plus the `MicState` boolean:
`_attack_reached`, `_last_above`, `_last_below`, and `mic._active`. Initial
values (from the constructors): `⟨false, 0, t0, false⟩` where `t0` is the
construction time. -/
structure MicMonState where
  attackReached : Bool
  lastAbove : ℚ
  lastBelow : ℚ
  micActive : Bool
  deriving DecidableEq

/-- One invocation of `MicrophoneMonitor._callback` on a sample
`p = (now, rms)`: if `rms >= threshold`, record the episode start on the
first above-threshold sample (`_attack_reached`), activate once
`(now - _last_above) * 1000 >= attack_ms`, and set `_last_below = now`;
otherwise go idle (and reset `_attack_reached`) once
`(now - _last_below) * 1000 >= release_ms`. -/
def micCallback (th att rel : ℚ) (st : MicMonState) (p : ℚ × ℚ) : MicMonState :=
  if th ≤ p.2 then
    let st1 := if st.attackReached then st
               else { st with attackReached := true, lastAbove := p.1 }
    let st2 := if att ≤ (p.1 - st1.lastAbove) * 1000 then { st1 with micActive := true }
               else st1
    { st2 with lastBelow := p.1 }
  else
    if rel ≤ (p.1 - st.lastBelow) * 1000 then
      { st with micActive := false, attackReached := false }
    else st

/-- Run the callback over a list of samples from a given state. -/
def micRunFrom (th att rel : ℚ) (st : MicMonState) : List (ℚ × ℚ) → MicMonState
  | [] => st
  | p :: rest => micRunFrom th att rel (micCallback th att rel st p) rest

/-- Initial monitor state at construction time `t0`. -/
def micInit (t0 : ℚ) : MicMonState := ⟨false, 0, t0, false⟩

/-- Sample trace refuting the stated C3: threshold 1/50, attack 120 ms,
release 1200 ms; the signal is above threshold at t = 0 s, below at
t = 0.1 s, above again at t = 0.15 s. -/
def micSpikeTrace : List (ℚ × ℚ) := [(0, 1/2), (1/10, 0), (3/20, 1/2)]

/-- C3 counterexample: running `micSpikeTrace` flips the state to Active at
the third sample (t = 0.15 s) even though the second sample, 50 ms earlier
and well inside the 120 ms attack window, was below the threshold - the
signal did NOT stay above the threshold continuously for `attackMs` before
the transition, because `_attack_reached` is not reset by a sub-release dip. -/
theorem C3_counterexample :
    (micRunFrom (1/50) 120 1200 (micInit 0) micSpikeTrace).micActive = true ∧
      (micRunFrom (1/50) 120 1200 (micInit 0) (micSpikeTrace.take 2)).micActive = false ∧
      ((0 : ℚ) < 1/50 ∧ (3/20 - 1/10 : ℚ) * 1000 < 120) := by
  refine ⟨?_, ?_, by norm_num⟩ <;>
    norm_num [micRunFrom, micCallback, micSpikeTrace, micInit]

/-- Above-threshold branch of the callback in closed form: the episode flag is
set, the episode start `_last_above` is kept (or initialised to `now`),
`_last_below` becomes `now`, and the mic activates exactly when the attack
time has elapsed since the episode start. -/
lemma micCallback_above (th att rel : ℚ) (st : MicMonState) (p : ℚ × ℚ)
    (h : th ≤ p.2) :
    micCallback th att rel st p =
      ⟨true, if st.attackReached then st.lastAbove else p.1, p.1,
        if att ≤ (p.1 - (if st.attackReached then st.lastAbove else p.1)) * 1000 then true
        else st.micActive⟩ := by
  unfold micCallback
  rw [if_pos h]
  by_cases hr : st.attackReached
  · simp only [hr, if_true]
    by_cases hg : att ≤ (p.1 - st.lastAbove) * 1000
    · simp [hg, hr]
    · simp [hg, hr]
  · simp only [hr, if_false]
    by_cases hg : att ≤ 0
    · simp [hg, sub_self]
    · simp [hg, sub_self]

/-- Below-threshold branch of the callback in closed form. -/
lemma micCallback_below (th att rel : ℚ) (st : MicMonState) (p : ℚ × ℚ)
    (h : ¬ th ≤ p.2) :
    micCallback th att rel st p =
      if rel ≤ (p.1 - st.lastBelow) * 1000 then
        { st with micActive := false, attackReached := false }
      else st := by
  unfold micCallback
  rw [if_neg h]

/-- Running a concatenation of sample lists is sequential composition. -/
lemma micRunFrom_append (th att rel : ℚ) (a b : List (ℚ × ℚ)) (st : MicMonState) :
    micRunFrom th att rel st (a ++ b) =
      micRunFrom th att rel (micRunFrom th att rel st a) b := by
  induction a generalizing st with
  | nil => rfl
  | cons p rest ih => simp [micRunFrom, ih]

/-- Unfolding one step of the run at position `n`. -/
lemma micRunFrom_take_succ (th att rel : ℚ) (st : MicMonState)
    (l : List (ℚ × ℚ)) (n : ℕ) (hn : n < l.length) :
    micRunFrom th att rel st (l.take (n + 1)) =
      micCallback th att rel (micRunFrom th att rel st (l.take n)) (l.get ⟨n, hn⟩) := by
  rw [List.take_succ]
  have : l[n]? = some (l.get ⟨n, hn⟩) := by
    rw [List.getElem?_eq_getElem hn]
    rfl
  rw [this]
  simp only [Option.toList_some]
  rw [micRunFrom_append]
  rfl

/-- If every above-threshold sample lies in a window `[a, a + d]` with
`d * 1000 < attackMs`, the mic never activates: the activation guard can never
fire because the recorded episode start also lies in the window. -/
lemma mic_spike_invariant (th att rel a d : ℚ) (hd : d * 1000 < att) :
    ∀ (samples : List (ℚ × ℚ)) (st : MicMonState),
      (∀ p ∈ samples, th ≤ p.2 → a ≤ p.1 ∧ p.1 ≤ a + d) →
      st.micActive = false → (st.attackReached = true → a ≤ st.lastAbove) →
      (micRunFrom th att rel st samples).micActive = false := by
  intro samples
  induction samples with
  | nil => intro st _ hact _; exact hact
  | cons s rest ih =>
    intro st hsp hact hreach
    simp only [micRunFrom]
    by_cases habove : th ≤ s.2
    · obtain ⟨ha1, ha2⟩ := hsp s (List.mem_cons_self _ _) habove
      rw [micCallback_above th att rel st s habove]
      have hlaa : a ≤ (if st.attackReached then st.lastAbove else s.1) := by
        by_cases hr : st.attackReached
        · simpa [hr] using hreach hr
        · simpa [hr] using ha1
      have hng : ¬ att ≤ (s.1 - (if st.attackReached then st.lastAbove else s.1)) * 1000 := by
        have h1 : s.1 - (if st.attackReached then st.lastAbove else s.1) ≤ d := by linarith
        have h2 : (s.1 - (if st.attackReached then st.lastAbove else s.1)) * 1000 ≤ d * 1000 :=
          mul_le_mul_of_nonneg_right h1 (by norm_num)
        exact not_le.mpr (lt_of_le_of_lt h2 hd)
      refine ih _ (fun p hp hpa => hsp p (List.mem_cons_of_mem _ hp) hpa) ?_ ?_
      · show (if att ≤ (s.1 - (if st.attackReached then st.lastAbove else s.1)) * 1000
            then true else st.micActive) = false
        rw [if_neg hng]; exact hact
      · intro _
        exact hlaa
    · rw [micCallback_below th att rel st s habove]
      by_cases hrel : rel ≤ (s.1 - st.lastBelow) * 1000
      · rw [if_pos hrel]
        refine ih _ (fun p hp hpa => hsp p (List.mem_cons_of_mem _ hp) hpa) rfl ?_
        intro hcontr
        exact absurd hcontr (by simp)
      · rw [if_neg hrel]
        exact ih _ (fun p hp hpa => hsp p (List.mem_cons_of_mem _ hp) hpa) hact hreach

/-- Whenever `_attack_reached` is set, `_last_above` is the timestamp of some
above-threshold sample of the run (the start of the current attack episode). -/
lemma mic_attack_origin (th att rel : ℚ) (L : List (ℚ × ℚ)) :
    ∀ (samples : List (ℚ × ℚ)) (st : MicMonState), samples ⊆ L →
      (st.attackReached = true → ∃ p ∈ L, th ≤ p.2 ∧ st.lastAbove = p.1) →
      (micRunFrom th att rel st samples).attackReached = true →
      ∃ p ∈ L, th ≤ p.2 ∧ (micRunFrom th att rel st samples).lastAbove = p.1 := by
  intro samples
  induction samples with
  | nil => intro st _ hinv h; exact hinv h
  | cons s rest ih =>
    intro st hsub hinv
    simp only [micRunFrom]
    apply ih _ (fun p hp => hsub (List.mem_cons_of_mem _ hp))
    by_cases habove : th ≤ s.2
    · rw [micCallback_above th att rel st s habove]
      intro _
      by_cases hr : st.attackReached
      · obtain ⟨p, hpL, hpa, hpe⟩ := hinv hr
        refine ⟨p, hpL, hpa, ?_⟩
        show (if st.attackReached then st.lastAbove else s.1) = p.1
        rw [if_pos hr]; exact hpe
      · refine ⟨s, hsub (List.mem_cons_self _ _), habove, ?_⟩
        show (if st.attackReached then st.lastAbove else s.1) = s.1
        rw [if_neg hr]
    · rw [micCallback_below th att rel st s habove]
      by_cases hrel : rel ≤ (s.1 - st.lastBelow) * 1000
      · rw [if_pos hrel]
        intro hcontr
        exact absurd hcontr (by simp)
      · rw [if_neg hrel]
        exact hinv

/-- `_last_below` dominates the timestamp of every above-threshold sample
processed so far (it is refreshed by every above-threshold sample and
timestamps are monotone). -/
lemma mic_lastBelow_bound (th att rel : ℚ) :
    ∀ (samples : List (ℚ × ℚ)) (st : MicMonState),
      List.Pairwise (fun p q : ℚ × ℚ => p.1 ≤ q.1) samples →
      (∀ p ∈ samples, st.lastBelow ≤ p.1) →
      st.lastBelow ≤ (micRunFrom th att rel st samples).lastBelow ∧
      ∀ p ∈ samples, th ≤ p.2 → p.1 ≤ (micRunFrom th att rel st samples).lastBelow := by
  intro samples
  induction samples with
  | nil => intro st _ _; exact ⟨le_refl _, by simp⟩
  | cons s rest ih =>
    intro st hpw hlb
    obtain ⟨hhead, hrest⟩ := List.pairwise_cons.mp hpw
    simp only [micRunFrom]
    by_cases habove : th ≤ s.2
    · rw [micCallback_above th att rel st s habove]
      obtain ⟨hmono, hall⟩ := ih
        (⟨true, if st.attackReached then st.lastAbove else s.1, s.1,
          if att ≤ (s.1 - (if st.attackReached then st.lastAbove else s.1)) * 1000 then true
          else st.micActive⟩ : MicMonState) hrest (fun p hp => hhead p hp)
      constructor
      · exact le_trans (hlb s (List.mem_cons_self _ _)) hmono
      · intro p hp hpa
        rcases List.mem_cons.mp hp with heq | hp'
        · rw [heq]; exact hmono
        · exact hall p hp' hpa
    · rw [micCallback_below th att rel st s habove]
      by_cases hrel : rel ≤ (s.1 - st.lastBelow) * 1000
      · rw [if_pos hrel]
        obtain ⟨hmono, hall⟩ := ih ({ st with micActive := false, attackReached := false })
          hrest (fun p hp => hlb p (List.mem_cons_of_mem _ hp))
        refine ⟨hmono, ?_⟩
        intro p hp hpa
        rcases List.mem_cons.mp hp with heq | hp'
        · rw [heq] at hpa; exact absurd hpa habove
        · exact hall p hp' hpa
      · rw [if_neg hrel]
        obtain ⟨hmono, hall⟩ := ih st hrest (fun p hp => hlb p (List.mem_cons_of_mem _ hp))
        refine ⟨hmono, ?_⟩
        intro p hp hpa
        rcases List.mem_cons.mp hp with heq | hp'
        · rw [heq] at hpa; exact absurd hpa habove
        · exact hall p hp' hpa

/-- A prefix of length `n + 1` is the prefix of length `n` plus the sample at
position `n`. -/
lemma take_succ_get (l : List (ℚ × ℚ)) (n : ℕ) (hn : n < l.length) :
    l.take (n + 1) = l.take n ++ [l.get ⟨n, hn⟩] := by
  rw [List.take_succ, List.getElem?_eq_getElem hn]
  rfl

/-- C3 (amended): with monotone sample timestamps (and construction time `t0`
before the first sample), (a) for every sample sequence whose above-threshold
samples all lie within a span shorter than `attackMs` - in particular a single
spike shorter than `attackMs` - the state never flips to Active at any point
of the run; (b) the state flips to Active only on an above-threshold sample
and only when at least `attackMs` has elapsed since an earlier above-threshold
sample that started the current attack episode (dips shorter than `releaseMs`
do not reset the episode); (c) the state flips to Idle only on a
below-threshold sample and only when every above-threshold sample so far is at
least `releaseMs` in the past, i.e. the signal stayed below the threshold
continuously for `releaseMs`. -/
theorem C3_amended (th att rel t0 : ℚ) (samples : List (ℚ × ℚ))
    (hmono : List.Pairwise (fun p q : ℚ × ℚ => p.1 ≤ q.1) samples)
    (ht0 : ∀ p ∈ samples, t0 ≤ p.1) :
    (∀ a d : ℚ, d * 1000 < att →
      (∀ p ∈ samples, th ≤ p.2 → a ≤ p.1 ∧ p.1 ≤ a + d) →
      ∀ n : ℕ,
        (micRunFrom th att rel (micInit t0) (samples.take n)).micActive = false) ∧
    (∀ n : ℕ, ∀ hn : n < samples.length,
      (micRunFrom th att rel (micInit t0) (samples.take n)).micActive = false →
      (micRunFrom th att rel (micInit t0) (samples.take (n + 1))).micActive = true →
      th ≤ (samples.get ⟨n, hn⟩).2 ∧
        ∃ p ∈ samples, th ≤ p.2 ∧ att ≤ ((samples.get ⟨n, hn⟩).1 - p.1) * 1000) ∧
    (∀ n : ℕ, ∀ hn : n < samples.length,
      (micRunFrom th att rel (micInit t0) (samples.take n)).micActive = true →
      (micRunFrom th att rel (micInit t0) (samples.take (n + 1))).micActive = false →
      (samples.get ⟨n, hn⟩).2 < th ∧
        ∀ p ∈ samples.take (n + 1), th ≤ p.2 →
          rel ≤ ((samples.get ⟨n, hn⟩).1 - p.1) * 1000) := by
  refine ⟨?_, ?_, ?_⟩
  · intro a d hd hspan n
    exact mic_spike_invariant th att rel a d hd (samples.take n) (micInit t0)
      (fun p hp hpa => hspan p (List.take_subset n samples hp) hpa) rfl
      (fun h => Bool.noConfusion h)
  · intro n hn hfalse htrue
    rw [micRunFrom_take_succ th att rel (micInit t0) samples n hn] at htrue
    set stn := micRunFrom th att rel (micInit t0) (samples.take n) with hstn
    set s := samples.get ⟨n, hn⟩ with hs
    by_cases habove : th ≤ s.2
    · refine ⟨habove, ?_⟩
      rw [micCallback_above th att rel stn s habove] at htrue
      have htrue2 : (if att ≤ (s.1 - (if stn.attackReached then stn.lastAbove else s.1)) * 1000
          then true else stn.micActive) = true := htrue
      by_cases hg : att ≤ (s.1 - (if stn.attackReached then stn.lastAbove else s.1)) * 1000
      · by_cases hr : stn.attackReached
        · obtain ⟨p, hpL, hpa, hpe⟩ := mic_attack_origin th att rel samples
            (samples.take n) (micInit t0) (List.take_subset n samples)
            (fun h => Bool.noConfusion h) hr
          refine ⟨p, hpL, hpa, ?_⟩
          rw [if_pos hr] at hg
          rw [← hstn] at hpe
          rw [hpe] at hg
          exact hg
        · refine ⟨s, hs ▸ List.get_mem samples n hn, habove, ?_⟩
          rw [if_neg hr] at hg
          simpa using hg
      · rw [if_neg hg] at htrue2
        rw [hfalse] at htrue2
        exact Bool.noConfusion htrue2
    · exfalso
      rw [micCallback_below th att rel stn s habove] at htrue
      by_cases hrel : rel ≤ (s.1 - stn.lastBelow) * 1000
      · rw [if_pos hrel] at htrue
        exact Bool.noConfusion htrue
      · rw [if_neg hrel] at htrue
        rw [hfalse] at htrue
        exact Bool.noConfusion htrue
  · intro n hn htrue hfalse
    rw [micRunFrom_take_succ th att rel (micInit t0) samples n hn] at hfalse
    set stn := micRunFrom th att rel (micInit t0) (samples.take n) with hstn
    set s := samples.get ⟨n, hn⟩ with hs
    by_cases habove : th ≤ s.2
    · exfalso
      rw [micCallback_above th att rel stn s habove] at hfalse
      have hfalse2 : (if att ≤ (s.1 - (if stn.attackReached then stn.lastAbove else s.1)) * 1000
          then true else stn.micActive) = false := hfalse
      by_cases hg : att ≤ (s.1 - (if stn.attackReached then stn.lastAbove else s.1)) * 1000
      · rw [if_pos hg] at hfalse2
        exact Bool.noConfusion hfalse2
      · rw [if_neg hg] at hfalse2
        rw [htrue] at hfalse2
        exact Bool.noConfusion hfalse2
    · refine ⟨not_le.mp habove, ?_⟩
      rw [micCallback_below th att rel stn s habove] at hfalse
      by_cases hrel : rel ≤ (s.1 - stn.lastBelow) * 1000
      · have hbound := (mic_lastBelow_bound th att rel (samples.take n) (micInit t0)
          (List.Pairwise.sublist (List.take_sublist n samples) hmono)
          (fun p hp => ht0 p (List.take_subset n samples hp))).2
        intro p hp hpa
        rw [take_succ_get samples n hn] at hp
        rcases List.mem_append.mp hp with hp' | hp''
        · have hple : p.1 ≤ stn.lastBelow := hbound p hp' hpa
          have hmul : (s.1 - stn.lastBelow) * 1000 ≤ (s.1 - p.1) * 1000 :=
            mul_le_mul_of_nonneg_right (by linarith) (by norm_num)
          linarith
        · rw [List.mem_singleton] at hp''
          rw [hp''] at hpa
          exact absurd hpa habove
      · exfalso
        rw [if_neg hrel] at hfalse
        rw [htrue] at hfalse
        exact Bool.noConfusion hfalse

/-- Witness for C3 at a concrete input: a single above-threshold sample at
time 0, threshold 1/50, attack 120 ms, release 1200 ms. -/
theorem C3_amended_witness :
    (List.Pairwise (fun p q : ℚ × ℚ => p.1 ≤ q.1) [((0 : ℚ), (1 : ℚ))] ∧
      (∀ p ∈ [((0 : ℚ), (1 : ℚ))], (0 : ℚ) ≤ p.1)) ∧
    ((∀ a d : ℚ, d * 1000 < 120 →
        (∀ p ∈ [((0 : ℚ), (1 : ℚ))], (1 : ℚ)/50 ≤ p.2 → a ≤ p.1 ∧ p.1 ≤ a + d) →
        ∀ n : ℕ,
          (micRunFrom (1/50) 120 1200 (micInit 0)
            ([((0 : ℚ), (1 : ℚ))].take n)).micActive = false) ∧
      (∀ n : ℕ, ∀ hn : n < [((0 : ℚ), (1 : ℚ))].length,
        (micRunFrom (1/50) 120 1200 (micInit 0)
          ([((0 : ℚ), (1 : ℚ))].take n)).micActive = false →
        (micRunFrom (1/50) 120 1200 (micInit 0)
          ([((0 : ℚ), (1 : ℚ))].take (n + 1))).micActive = true →
        (1 : ℚ)/50 ≤ ([((0 : ℚ), (1 : ℚ))].get ⟨n, hn⟩).2 ∧
          ∃ p ∈ [((0 : ℚ), (1 : ℚ))], (1 : ℚ)/50 ≤ p.2 ∧
            (120 : ℚ) ≤ (([((0 : ℚ), (1 : ℚ))].get ⟨n, hn⟩).1 - p.1) * 1000) ∧
      (∀ n : ℕ, ∀ hn : n < [((0 : ℚ), (1 : ℚ))].length,
        (micRunFrom (1/50) 120 1200 (micInit 0)
          ([((0 : ℚ), (1 : ℚ))].take n)).micActive = true →
        (micRunFrom (1/50) 120 1200 (micInit 0)
          ([((0 : ℚ), (1 : ℚ))].take (n + 1))).micActive = false →
        ([((0 : ℚ), (1 : ℚ))].get ⟨n, hn⟩).2 < (1 : ℚ)/50 ∧
          ∀ p ∈ [((0 : ℚ), (1 : ℚ))].take (n + 1), (1 : ℚ)/50 ≤ p.2 →
            (1200 : ℚ) ≤ (([((0 : ℚ), (1 : ℚ))].get ⟨n, hn⟩).1 - p.1) * 1000)) :=
  ⟨⟨by simp, by simp⟩,
    C3_amended (1/50) 120 1200 0 [((0 : ℚ), (1 : ℚ))] (by simp) (by simp)⟩

/-! ## Relevance scorer (`Relevance.score`, pal_ALONE.py lines 382-414)

Python `str.lower()` and `str.strip()` are modelled character-wise, and the
substring operator `in` by an explicit contiguous-infix check on the
character lists. -/

/-- Character-wise `str.lower()`. -/
def pyLower (s : String) : String := ⟨s.data.map Char.toLower⟩

/-- `str.strip()`: drop whitespace from both ends. -/
def pyStrip (s : String) : String :=
  ⟨((s.data.dropWhile Char.isWhitespace).reverse.dropWhile Char.isWhitespace).reverse⟩

/-- `a.isPrefixOf b` on character lists. -/
def charsPrefix : List Char → List Char → Bool
  | [], _ => true
  | _ :: _, [] => false
  | a :: as, b :: bs => a == b && charsPrefix as bs

/-- Contiguous-substring check on character lists. -/
def charsContain (n : List Char) : List Char → Bool
  | [] => charsPrefix n []
  | c :: rest => charsPrefix n (c :: rest) || charsContain n rest

/-- The Python substring operator `needle in hay`. -/
def strIn (needle hay : String) : Bool := charsContain needle.data hay.data

/-- The `keywords_bonus` list of `DEFAULT_SETTINGS` (already lowercase, as
`Relevance.__init__` lowercases it). -/
def defaultKeywordsBonus : List String :=
  ["warum","wieso","wie","wann","wo","wer","was","welche","welcher","welches",
   "why","how","when","where","who","what","which","how much","how many"]

/-- `Relevance.score(text)`: lowercase and strip the text, then accumulate
+0.6 for a question mark, +0.35 for a bonus keyword, +0.1 for stripped length
at least 7, +0.05 for one of `:`, `;`, `!`, capped at 1.0 - translated
statement by statement from the Python accumulator. -/
def Relevance.score (kwBonus : List String) (text : String) : ℚ :=
  let low := pyStrip (pyLower text)
  let s0 : ℚ := 0
  let s1 := if strIn "?" low then s0 + 6/10 else s0
  let s2 := if kwBonus.any (fun k => strIn k low) then s1 + 35/100 else s1
  let s3 := if 7 ≤ low.length then s2 + 1/10 else s2
  let s4 := if [":", ";", "!"].any (fun p => strIn p low) then s3 + 5/100 else s3
  min 1 s4

/-- The scoring formula exactly as the claim words it, as a function of the
text it is applied to: the sum of the four independent contributions, clamped
to 1. Comparing `Relevance.score` against this definition settles whether the
tests are performed on the raw or on the normalised text. -/
def scoreSpecSum (kwBonus : List String) (text : String) : ℚ :=
  min 1 ((if strIn "?" text then 6/10 else 0) +
    (if kwBonus.any (fun k => strIn k text) then 35/100 else 0) +
    (if 7 ≤ text.length then 1/10 else 0) +
    (if [":", ";", "!"].any (fun p => strIn p text) then 5/100 else 0))

/-- C7 counterexample: the comment `"abcdef "` (six letters plus a trailing
space, so 7 characters) scores 0 in the code, because the length test runs on
the stripped text of length 6; the claimed sum over the raw text is 0.1. -/
theorem C7_counterexample :
    Relevance.score defaultKeywordsBonus "abcdef " = 0 ∧
      scoreSpecSum defaultKeywordsBonus "abcdef " = 1/10 := by
  constructor
  · have h1 : strIn "?" (pyStrip (pyLower "abcdef ")) = false := by decide
    have h2 : (defaultKeywordsBonus.any
        (fun k => strIn k (pyStrip (pyLower "abcdef ")))) = false := by decide
    have h3 : ¬ (7 ≤ (pyStrip (pyLower "abcdef ")).length) := by decide
    have h4 : ([":", ";", "!"].any
        (fun p => strIn p (pyStrip (pyLower "abcdef ")))) = false := by decide
    simp only [Relevance.score, h1, h2, h4, if_false, if_neg h3]
    norm_num
  · have h1 : strIn "?" "abcdef " = false := by decide
    have h2 : (defaultKeywordsBonus.any (fun k => strIn k "abcdef ")) = false := by
      decide
    have h3 : (7 ≤ ("abcdef " : String).length) := by decide
    have h4 : ([":", ";", "!"].any (fun p => strIn p "abcdef ")) = false := by decide
    simp only [scoreSpecSum, h1, h2, h4, if_false, if_pos h3]
    norm_num

/-- C7 (amended): `score(text)` equals the claimed additive formula applied to
the lowercased, whitespace-stripped text (question mark, bonus keyword and
punctuation containment as well as the length-at-least-7 test are all
performed on that normalised text), clamped to 1.0; and the comment
`"warum ist das so?"` scores at least 0.6. -/
theorem C7_score_amended :
    (∀ (kwBonus : List String) (text : String),
      Relevance.score kwBonus text = scoreSpecSum kwBonus (pyStrip (pyLower text))) ∧
    (6 : ℚ)/10 ≤ Relevance.score defaultKeywordsBonus "warum ist das so?" := by
  constructor
  · intro kwBonus text
    unfold Relevance.score scoreSpecSum
    by_cases h1 : strIn "?" (pyStrip (pyLower text)) = true <;>
      by_cases h2 : (kwBonus.any (fun k => strIn k (pyStrip (pyLower text)))) = true <;>
        by_cases h3 : 7 ≤ (pyStrip (pyLower text)).length <;>
          by_cases h4 : ([":", ";", "!"].any
              (fun p => strIn p (pyStrip (pyLower text)))) = true <;>
            simp [h1, h2, h3, h4]
  · have h1 : strIn "?" (pyStrip (pyLower "warum ist das so?")) = true := by decide
    have h2 : (defaultKeywordsBonus.any
        (fun k => strIn k (pyStrip (pyLower "warum ist das so?")))) = true := by decide
    have h3 : (7 ≤ (pyStrip (pyLower "warum ist das so?")).length) := by decide
    have h4 : ([":", ";", "!"].any
        (fun p => strIn p (pyStrip (pyLower "warum ist das so?")))) = false := by decide
    simp only [Relevance.score, h1, h2, h4, if_true, if_false, if_pos h3]
    norm_num

/-! ## Outbox batcher (`OutboxBatcher.add`, pal_ALONE.py lines 460-498)

Only the fields `add` touches are modelled: the fragment buffer and the
first-fragment timestamp. A flush is reported as the joined payload handed to
`send_to_animaze` (`_flush_locked`). -/

/-- Buffer state of `OutboxBatcher`. -/
structure OutboxState where
  buffer : List String
  firstTs : Option ℚ
  deriving DecidableEq

/-- `OutboxBatcher.add(text)`: ignore empty fragments; append the stripped
fragment; stamp the first-fragment time; then flush immediately (clearing the
buffer and emitting the separator-joined payload) if the joined length
exceeds `max_chars` or the buffer has reached `max_items`; otherwise keep
buffering. Returns the new state and the flushed payload, if any. -/
def OutboxBatcher.add (maxItems maxChars : ℕ) (sep : String) (now : ℚ)
    (st : OutboxState) (text : String) : OutboxState × Option String :=
  if text = "" then (st, none)
  else
    let buf := st.buffer ++ [pyStrip text]
    let fts := match st.firstTs with
      | none => some now
      | some t => some t
    let joined := String.intercalate sep buf
    if maxChars < joined.length ∨ maxItems ≤ buf.length then
      (⟨[], none⟩, some joined)
    else (⟨buf, fts⟩, none)

/-- C6 counterexample: with the default caps (8 items, 320 characters,
separator `" • "`) adding the eighth one-character fragment flushes
immediately - the joined length (29) does not exceed the character cap and
the item count (8) does not exceed the item cap, yet a flush fires, because
the code flushes when the item count merely reaches the cap
(`len(self.buffer) >= self.max_items`). -/
theorem C6_counterexample :
    (OutboxBatcher.add 8 320 " • " 1
        ⟨["a","b","c","d","e","f","g"], some 0⟩ "h").2 =
      some "a • b • c • d • e • f • g • h" ∧
    ¬ (320 < (String.intercalate " • "
        (["a","b","c","d","e","f","g"] ++ [pyStrip "h"])).length ∨
       8 < (["a","b","c","d","e","f","g"] ++ [pyStrip "h"]).length) := by
  constructor
  · decide
  · decide

/-- C6 (amended): `add` of a non-empty fragment appends the stripped fragment
to the buffer and flushes immediately exactly when, after the append, the
separator-joined length exceeds the character cap or the item count reaches
(is at least) the item cap; when neither holds, no flush happens and the
appended buffer is kept for the time window; an empty fragment changes
nothing. -/
theorem C6_add_amended (maxItems maxChars : ℕ) (sep : String) (now : ℚ)
    (st : OutboxState) (text : String) (htext : text ≠ "") :
    ((OutboxBatcher.add maxItems maxChars sep now st text).2 =
        some (String.intercalate sep (st.buffer ++ [pyStrip text])) ↔
      (maxChars < (String.intercalate sep (st.buffer ++ [pyStrip text])).length ∨
        maxItems ≤ (st.buffer ++ [pyStrip text]).length)) ∧
    ((OutboxBatcher.add maxItems maxChars sep now st text).2 = none →
      (OutboxBatcher.add maxItems maxChars sep now st text).1.buffer =
        st.buffer ++ [pyStrip text]) ∧
    ((OutboxBatcher.add maxItems maxChars sep now st text).2 ≠ none →
      (OutboxBatcher.add maxItems maxChars sep now st text).1.buffer = []) ∧
    (OutboxBatcher.add maxItems maxChars sep now st "").1 = st ∧
    (OutboxBatcher.add maxItems maxChars sep now st "").2 = none := by
  unfold OutboxBatcher.add
  rw [if_neg htext]
  by_cases hc : maxChars <
      (String.intercalate sep (st.buffer ++ [pyStrip text])).length ∨
      maxItems ≤ (st.buffer ++ [pyStrip text]).length
  · rw [if_pos hc]
    exact ⟨iff_of_true rfl hc, by simp, by simp, by simp, by simp⟩
  · rw [if_neg hc]
    exact ⟨iff_of_false (by simp) hc, by simp, by simp, by simp, by simp⟩

/-- Witness for C6 at a concrete input: empty buffer, fragment `"a"`. -/
theorem C6_add_amended_witness :
    (("a" : String) ≠ "") ∧
    (((OutboxBatcher.add 8 320 " • " 0 ⟨[], none⟩ "a").2 =
        some (String.intercalate " • " ([] ++ [pyStrip "a"])) ↔
      (320 < (String.intercalate " • " ([] ++ [pyStrip "a"])).length ∨
        8 ≤ (([] : List String) ++ [pyStrip "a"]).length)) ∧
    ((OutboxBatcher.add 8 320 " • " 0 ⟨[], none⟩ "a").2 = none →
      (OutboxBatcher.add 8 320 " • " 0 ⟨[], none⟩ "a").1.buffer =
        [] ++ [pyStrip "a"]) ∧
    ((OutboxBatcher.add 8 320 " • " 0 ⟨[], none⟩ "a").2 ≠ none →
      (OutboxBatcher.add 8 320 " • " 0 ⟨[], none⟩ "a").1.buffer = []) ∧
    (OutboxBatcher.add 8 320 " • " 0 ⟨[], none⟩ "").1 = (⟨[], none⟩ : OutboxState) ∧
    (OutboxBatcher.add 8 320 " • " 0 ⟨[], none⟩ "").2 = none) :=
  ⟨by decide, C6_add_amended 8 320 " • " 0 ⟨[], none⟩ "a" (by decide)⟩

/-! ## Message trimming (`_trim` and `send_to_animaze`, pal_ALONE.py
lines 270-280)

`send_to_animaze` returns the message put on the delivery queue, or `none`
when nothing is enqueued. The Python slice `s[: maxlen - 1]` is modelled for
`maxlen ≥ 1` (the configured `max_line_length` is a positive length). -/

/-- `_trim(s)`: strip, and if longer than `max_line_length` cut to
`max_line_length - 1` characters and append a single ellipsis character. -/
def _trim (maxlen : ℕ) (s : String) : String :=
  let t := pyStrip s
  if t.length ≤ maxlen then t else (⟨t.data.take (maxlen - 1)⟩ : String) ++ "…"

/-- `send_to_animaze(text)`: skip empty text, otherwise enqueue the trimmed
text. -/
def send_to_animaze (maxlen : ℕ) (text : String) : Option String :=
  if text = "" then none else some (_trim maxlen text)

/-- C10 counterexample: the whitespace-only text `" "` is not the empty
string, so it passes the `if not text` guard, is trimmed to `""`, and the
empty message is enqueued - contradicting the claim that an empty text is
never enqueued at all. -/
theorem C10_counterexample : send_to_animaze 140 " " = some "" := by decide

/-- C10 (amended): every message enqueued by `send_to_animaze` is at most
`max_line_length` characters, a text whose stripped form is longer than
`max_line_length` is truncated to `max_line_length - 1` characters plus a
trailing ellipsis, and a call with the empty text enqueues nothing - however
a whitespace-only text is enqueued as the empty message (see the
counterexample). -/
theorem C10_send_amended (maxlen : ℕ) (s : String) (hmax : 1 ≤ maxlen) :
    (∀ t, send_to_animaze maxlen s = some t →
      t.length ≤ maxlen ∧
        (maxlen < (pyStrip s).length →
          t = (⟨(pyStrip s).data.take (maxlen - 1)⟩ : String) ++ "…")) ∧
    send_to_animaze maxlen "" = none := by
  constructor
  · intro t h
    unfold send_to_animaze at h
    by_cases hs : s = ""
    · rw [if_pos hs] at h
      exact Option.noConfusion h
    · rw [if_neg hs] at h
      have ht : t = _trim maxlen s := (Option.some.injEq _ _ ▸ h).symm
      unfold _trim at ht
      by_cases hlen : (pyStrip s).length ≤ maxlen
      · rw [if_pos hlen] at ht
        subst ht
        exact ⟨hlen, fun hcontra => absurd hlen (not_le.mpr hcontra)⟩
      · rw [if_neg hlen] at ht
        subst ht
        constructor
        · show ((⟨(pyStrip s).data.take (maxlen - 1)⟩ : String) ++ "…").length ≤ maxlen
          simp only [String.length, String.append, List.length_append, List.length_take]
          have hone : ("…" : String).data.length = 1 := by decide
          rw [hone]
          omega
        · intro _
          rfl
  · simp [send_to_animaze]

/-- Witness for C10 at a concrete input: `max_line_length = 140`, text
`"hi"`. -/
theorem C10_send_amended_witness :
    ((1 : ℕ) ≤ 140) ∧
    ((∀ t, send_to_animaze 140 "hi" = some t →
      t.length ≤ 140 ∧
        (140 < (pyStrip "hi").length →
          t = (⟨(pyStrip "hi").data.take (140 - 1)⟩ : String) ++ "…")) ∧
    send_to_animaze 140 "" = none) :=
  ⟨by decide, C10_send_amended 140 "hi" (by decide)⟩

/-! ## Comment pipeline (`process_comments`, pal_ALONE.py lines 627-701)

The per-item body of the `process_comments` loop is modelled as a pure state
transformer. The mutable loop state that the claims concern is
`next_allowed_global`, `per_user_until_local`, the per-user `last_greet`
memory field, and the fragments handed to `batcher.add` (the outbox); the
viewer table and the rolling comment history are not mentioned by the claims
and are omitted. The rate-limit token bucket and the cooldown sleeps are
modelled as instantaneous (their liveness is analysed separately with
`TakeStep`), and `batcher` is present, as `start_all`/`on_save` always
construct it before starting the pipeline. `reply_to_comment` is an oracle
`gen : Option String` giving the (word-truncated) reply, or `none` on an
OpenAI error or timeout. -/

/-- Python `str.split()`: number of maximal whitespace-free runs. -/
def countWordsAux : List Char → Bool → ℕ
  | [], _ => 0
  | c :: rest, inWord =>
    if c.isWhitespace then countWordsAux rest false
    else (if inWord then 0 else 1) + countWordsAux rest true

/-- `len(text.split())`. -/
def pyWordCount (s : String) : ℕ := countWordsAux s.data false

/-- The four `Relevance` methods the pipeline consults, as injected
functions. -/
structure ScorerFns where
  isIgnoredFn : String → Bool
  isGreetingFn : String → Bool
  isThanksFn : String → Bool
  scoreFn : String → ℚ

/-- Pipeline loop state: `next_allowed_global`, `per_user_until_local`,
the per-user `last_greet` field of the memory store, and the fragments
enqueued on the outbox batcher so far. -/
structure PipeState where
  nextAllowedGlobal : ℚ
  perUserUntil : List (String × ℚ)
  lastGreet : List (String × ℚ)
  outbox : List String
  deriving DecidableEq

/-- `dict.get(uid, 0)` on the association-list model (a fresh memory record
has `last_greet = 0.0`, so 0 is also the right default for `last_greet`). -/
def qlookup (l : List (String × ℚ)) (k : String) : ℚ :=
  match l.find? (fun kv => kv.1 == k) with
  | some kv => kv.2
  | none => 0

/-- `dict[uid] = v`, with the newest binding shadowing older ones. -/
def qset (l : List (String × ℚ)) (k : String) (v : ℚ) : List (String × ℚ) :=
  (k, v) :: l

/-- A dequeued comment item `{uid, nick, text}`. -/
structure CommentItem where
  uid : String
  nick : String
  text : String

/-- The thanks fast-path and the scored-reply branch of the loop body (the
code reached when the greeting fast-path did not fire, python `quick` being
false). The second component records whether the text-generation call was
invoked; cooldowns and the outbox change only when a fragment is enqueued.
On the scored branch an empty or failed reply (`if reply and batcher`)
changes nothing. -/
def processScored (replyThreshold globalCd perUserCd : ℚ) (respThanks : Bool)
    (sc : ScorerFns) (gen : Option String) (now : ℚ) (st : PipeState)
    (item : CommentItem) : PipeState × Bool :=
  if respThanks = true ∧ sc.isThanksFn item.text = true then
    ({ nextAllowedGlobal := now + globalCd,
       perUserUntil := qset st.perUserUntil item.uid (now + perUserCd),
       lastGreet := st.lastGreet,
       outbox := st.outbox ++ [item.nick ++ " bedankt sich"] }, false)
  else if replyThreshold ≤ sc.scoreFn item.text then
    match gen with
    | some reply =>
      if reply ≠ "" then
        ({ nextAllowedGlobal := now + globalCd,
           perUserUntil := qset st.perUserUntil item.uid (now + perUserCd),
           lastGreet := st.lastGreet,
           outbox := st.outbox ++
             ["@" ++ item.nick ++ ": " ++ item.text ++ " → " ++ reply] }, true)
      else (st, true)
    | none => (st, true)
  else (st, false)

/-- One iteration of the `process_comments` loop on a dequeued item: drop
short or ignored comments; re-enqueue (unchanged state) under an active
per-user cooldown; greeting fast-path with its own per-user greeting
cooldown; otherwise the thanks/scored logic of `processScored`. -/
def processComment (minLength : ℕ) (replyThreshold globalCd perUserCd greetCd : ℚ)
    (respGreet respThanks : Bool) (sc : ScorerFns) (gen : Option String)
    (now : ℚ) (st : PipeState) (item : CommentItem) : PipeState × Bool :=
  if item.text.length < minLength ∨ sc.isIgnoredFn item.text then (st, false)
  else if now < qlookup st.perUserUntil item.uid then (st, false)
  else if respGreet = true ∧ sc.isGreetingFn item.text = true ∧
      ¬ strIn "?" item.text = true ∧ pyWordCount item.text ≤ 4 then
    if greetCd ≤ now - qlookup st.lastGreet item.uid then
      ({ nextAllowedGlobal := now + globalCd,
         perUserUntil := qset st.perUserUntil item.uid (now + perUserCd),
         lastGreet := qset st.lastGreet item.uid now,
         outbox := st.outbox ++ [item.nick ++ " sagt hallo"] }, false)
    else processScored replyThreshold globalCd perUserCd respThanks sc gen now st item
  else processScored replyThreshold globalCd perUserCd respThanks sc gen now st item

/-- Appending a fragment always changes the outbox. -/
lemma append_singleton_ne (l : List String) (x : String) : l ++ [x] ≠ l := by
  intro h
  have := congrArg List.length h
  simp at this

/-- The thanks/scored logic changes nothing unless it enqueues a fragment,
and a failed generation call changes nothing. -/
lemma processScored_spec (replyThreshold globalCd perUserCd : ℚ) (respThanks : Bool)
    (sc : ScorerFns) (gen : Option String) (now : ℚ) (st : PipeState)
    (item : CommentItem) :
    ((processScored replyThreshold globalCd perUserCd respThanks sc gen
        now st item).1.outbox = st.outbox →
      (processScored replyThreshold globalCd perUserCd respThanks sc gen
        now st item).1 = st) ∧
    ((processScored replyThreshold globalCd perUserCd respThanks sc gen
        now st item).2 = true → gen = none →
      (processScored replyThreshold globalCd perUserCd respThanks sc gen
        now st item).1 = st) := by
  cases gen with
  | none =>
    unfold processScored
    split_ifs <;>
      first
        | exact ⟨fun _ => rfl, fun _ _ => rfl⟩
        | exact ⟨fun h => absurd h (append_singleton_ne _ _), fun h _ => by simp at h⟩
  | some reply =>
    unfold processScored
    dsimp only
    split_ifs with hth hsc hr
    · exact ⟨fun h => absurd h (append_singleton_ne _ _), fun h hg => hg.elim⟩
    · exact ⟨fun h => absurd h (append_singleton_ne _ _), fun h hg => hg.elim⟩
    · exact ⟨fun _ => rfl, fun _ _ => rfl⟩
    · exact ⟨fun _ => rfl, fun _ _ => rfl⟩

/-- C4: in one pipeline iteration, the global inter-reply cooldown, the
per-user cooldown and the per-user greeting cooldown change only when a
narration fragment is actually enqueued on the batcher; and when the
text-generation call is invoked but fails or times out (`gen = none`), the
whole state - cooldowns and outbox - is unchanged, so no output is produced
and no cooldown timer advances. -/
theorem C4_cooldowns_only_on_enqueue (minLength : ℕ)
    (replyThreshold globalCd perUserCd greetCd : ℚ)
    (respGreet respThanks : Bool) (sc : ScorerFns) (gen : Option String)
    (now : ℚ) (st : PipeState) (item : CommentItem) :
    ((processComment minLength replyThreshold globalCd perUserCd greetCd
        respGreet respThanks sc gen now st item).1.outbox = st.outbox →
      ((processComment minLength replyThreshold globalCd perUserCd greetCd
          respGreet respThanks sc gen now st item).1.nextAllowedGlobal =
          st.nextAllowedGlobal ∧
        (processComment minLength replyThreshold globalCd perUserCd greetCd
          respGreet respThanks sc gen now st item).1.perUserUntil =
          st.perUserUntil ∧
        (processComment minLength replyThreshold globalCd perUserCd greetCd
          respGreet respThanks sc gen now st item).1.lastGreet = st.lastGreet)) ∧
    ((processComment minLength replyThreshold globalCd perUserCd greetCd
        respGreet respThanks sc gen now st item).2 = true → gen = none →
      (processComment minLength replyThreshold globalCd perUserCd greetCd
        respGreet respThanks sc gen now st item).1 = st) := by
  have hsc := processScored_spec replyThreshold globalCd perUserCd respThanks
    sc gen now st item
  unfold processComment
  split_ifs <;>
    first
      | exact ⟨fun _ => ⟨rfl, rfl, rfl⟩, fun _ _ => rfl⟩
      | exact ⟨fun h => absurd h (append_singleton_ne _ _), fun h _ => by simp at h⟩
      | exact ⟨fun h => by rw [hsc.1 h]; exact ⟨rfl, rfl, rfl⟩, hsc.2⟩

/-- A scorer whose functions are constant, for witnesses: nothing is ignored,
nothing is a greeting or thanks, every text scores 1. -/
def cScorer : ScorerFns := ⟨fun _ => false, fun _ => false, fun _ => false, fun _ => 1⟩

/-- Fresh pipeline state. -/
def pipeSt0 : PipeState := ⟨0, [], [], []⟩

/-- A concrete scored comment. -/
def item0 : CommentItem := ⟨"u1", "Nick", "warum"⟩

/-- Witness for C4 at a concrete input: a scored comment whose generation
call fails (`gen = none`) leaves the entire state unchanged. -/
theorem C4_cooldowns_only_on_enqueue_witness :
    ((processComment 3 (4/10) 6 15 360 true true cScorer none 10 pipeSt0
        item0).1.nextAllowedGlobal = pipeSt0.nextAllowedGlobal ∧
      (processComment 3 (4/10) 6 15 360 true true cScorer none 10 pipeSt0
        item0).1.perUserUntil = pipeSt0.perUserUntil ∧
      (processComment 3 (4/10) 6 15 360 true true cScorer none 10 pipeSt0
        item0).1.lastGreet = pipeSt0.lastGreet) ∧
    (processComment 3 (4/10) 6 15 360 true true cScorer none 10 pipeSt0
      item0).1 = pipeSt0 := by
  have hlen : ¬ (("warum" : String).length < 3) := by decide
  refine ⟨(C4_cooldowns_only_on_enqueue 3 (4/10) 6 15 360 true true cScorer
      none 10 pipeSt0 item0).1 ?_,
    (C4_cooldowns_only_on_enqueue 3 (4/10) 6 15 360 true true cScorer
      none 10 pipeSt0 item0).2 ?_ rfl⟩
  · norm_num [processComment, processScored, qlookup, cScorer, pipeSt0, item0, hlen]
  · norm_num [processComment, processScored, qlookup, cScorer, pipeSt0, item0, hlen]

/-- The startup guard on the configured reply threshold in
`process_comments`: a value above 0.8 is replaced by 0.4, anything else is
kept. -/
def effectiveReplyThreshold (configured : ℚ) : ℚ :=
  if 8/10 < configured then 4/10 else configured

/-- A pipeline iteration as `process_comments` runs it: the score comparisons
use the guarded threshold computed once at startup. -/
def process_comments_step (configuredThreshold : ℚ) (minLength : ℕ)
    (globalCd perUserCd greetCd : ℚ) (respGreet respThanks : Bool)
    (sc : ScorerFns) (gen : Option String) (now : ℚ) (st : PipeState)
    (item : CommentItem) : PipeState × Bool :=
  processComment minLength (effectiveReplyThreshold configuredThreshold)
    globalCd perUserCd greetCd respGreet respThanks sc gen now st item

/-- C5: a configured reply threshold above 0.8 is clamped to 0.4 at pipeline
startup - the run then behaves exactly as a run configured with 0.4 - and a
configured threshold of at most 0.8 is used unchanged. -/
theorem C5_threshold_clamp :
    (∀ c : ℚ, 8/10 < c → effectiveReplyThreshold c = 4/10) ∧
    (∀ c : ℚ, c ≤ 8/10 → effectiveReplyThreshold c = c) ∧
    (∀ c : ℚ, 8/10 < c → ∀ (minLength : ℕ) (globalCd perUserCd greetCd : ℚ)
      (respGreet respThanks : Bool) (sc : ScorerFns) (gen : Option String)
      (now : ℚ) (st : PipeState) (item : CommentItem),
      process_comments_step c minLength globalCd perUserCd greetCd respGreet
        respThanks sc gen now st item =
      processComment minLength (4/10) globalCd perUserCd greetCd respGreet
        respThanks sc gen now st item) := by
  refine ⟨fun c hc => if_pos hc, fun c hc => if_neg (not_lt.mpr hc), ?_⟩
  intro c hc minLength globalCd perUserCd greetCd respGreet respThanks sc gen
    now st item
  unfold process_comments_step
  rw [effectiveReplyThreshold, if_pos hc]

/-- Witness for C5 at concrete thresholds 0.9 (clamped) and 0.6 (kept). -/
theorem C5_threshold_clamp_witness :
    ((8 : ℚ)/10 < 9/10 ∧ (6 : ℚ)/10 ≤ 8/10) ∧
    (effectiveReplyThreshold (9/10) = 4/10 ∧
      effectiveReplyThreshold (6/10) = 6/10 ∧
      process_comments_step (9/10) 3 6 15 360 true true cScorer none 10
        pipeSt0 item0 =
      processComment 3 (4/10) 6 15 360 true true cScorer none 10
        pipeSt0 item0) :=
  ⟨⟨by norm_num, by norm_num⟩,
    C5_threshold_clamp.1 (9/10) (by norm_num),
    C5_threshold_clamp.2.1 (6/10) (by norm_num),
    C5_threshold_clamp.2.2 (9/10) (by norm_num) 3 6 15 360 true true cScorer
      none 10 pipeSt0 item0⟩

/-! ## Event ingestion handlers (`tiktok_listener`, pal_ALONE.py lines 783-881)

Each `@client.on(...)` handler is modelled as a function from the shared
dedup store (and, for follows, the handler-local `_last` timestamp) to the
updated store and a flag saying whether the event was enqueued on its
category queue. `make_sig` is the sha1 hex digest of
`prefix + "|" + "|".join(parts)`; the digest is modelled by its pre-image
string. Viewer/memory side effects are not mentioned by the claim and are
omitted. -/

/-- The pre-image string hashed by `make_sig`. -/
def makeSig (pre : String) (parts : List String) : String :=
  pre ++ "|" ++ String.intercalate "|" parts

/-- A fingerprint is present and unexpired: some entry carries it and
survives the purge at `now`. -/
def presentUnexpired (now : ℚ) (store : List (String × ℚ)) (sig : String) : Prop :=
  ∃ kv ∈ store, kv.1 = sig ∧ ¬ kv.2 < now

/-- `seen` answers `true` on a present, unexpired fingerprint. -/
lemma seen_true_of_present {ttl now : ℚ} {store : List (String × ℚ)} {sig : String}
    (h : presentUnexpired now store sig) :
    (EventDeduper.seen ttl now store sig).1 = true := by
  obtain ⟨kv, hm, hk, hl⟩ := h
  rw [seen_of_present ttl ⟨kv, mem_dedupPurge.mpr ⟨hm, hl⟩, hk⟩]

/-- Comment event payload. -/
structure CommentEvt where
  uid : String
  nick : String
  comment : String

/-- `on_comment`: strip and lowercase the text, drop short or ignored
comments, drop events without a user id, then check the deduper and enqueue
only fresh fingerprints. -/
def on_comment (minLen : ℕ) (isIgnoredFn : String → Bool) (ttl now : ℚ)
    (store : List (String × ℚ)) (e : CommentEvt) : List (String × ℚ) × Bool :=
  let low := pyLower (pyStrip e.comment)
  if low.length < minLen ∨ isIgnoredFn low then (store, false)
  else if e.uid = "" then (store, false)
  else
    let res := EventDeduper.seen ttl now store (makeSig "comment" [e.uid, low])
    if res.1 then (res.2, false) else (res.2, true)

/-- Gift event payload. -/
structure GiftEvt where
  uid : String
  giftName : String
  repeatCount : ℤ

/-- `on_gift`: dedup on (uid, gift name, repeat count), then enqueue. -/
def on_gift (ttl now : ℚ) (store : List (String × ℚ)) (e : GiftEvt) :
    List (String × ℚ) × Bool :=
  let res := EventDeduper.seen ttl now store
    (makeSig "gift" [e.uid, e.giftName, toString e.repeatCount])
  if res.1 then (res.2, false) else (res.2, true)

/-- Follow event payload. -/
structure FollowEvt where
  uid : String

/-- `on_follow`: a handler-local rate limit (`on_follow._last`) precedes the
dedup check; returns (store, new `_last`, enqueued). -/
def on_follow (globalCd ttl now lastFollow : ℚ) (store : List (String × ℚ))
    (e : FollowEvt) : List (String × ℚ) × ℚ × Bool :=
  if now - lastFollow < globalCd then (store, lastFollow, false)
  else
    let res := EventDeduper.seen ttl now store (makeSig "follow" [e.uid])
    if res.1 then (res.2, now, false) else (res.2, now, true)

/-- Subscribe event payload. -/
structure SubscribeEvt where
  uid : String

/-- `on_subscribe`: dedup on the user id, then enqueue. -/
def on_subscribe (ttl now : ℚ) (store : List (String × ℚ)) (e : SubscribeEvt) :
    List (String × ℚ) × Bool :=
  let res := EventDeduper.seen ttl now store (makeSig "subscribe" [e.uid])
  if res.1 then (res.2, false) else (res.2, true)

/-- Like event payload. -/
structure LikeEvt where
  uid : String
  count : ℤ

/-- `on_like`: the handler body is a single `await like_queue.put(evt)` - no
fingerprint is computed and the deduper is never consulted. -/
def on_like (store : List (String × ℚ)) (e : LikeEvt) :
    List (String × ℚ) × Bool :=
  (store, true)

/-- Share event payload. -/
structure ShareEvt where
  uid : String

/-- `on_share`: dedup on the user id, then enqueue. -/
def on_share (ttl now : ℚ) (store : List (String × ℚ)) (e : ShareEvt) :
    List (String × ℚ) × Bool :=
  let res := EventDeduper.seen ttl now store (makeSig "share" [e.uid])
  if res.1 then (res.2, false) else (res.2, true)

/-- Join event payload. -/
structure JoinEvt where
  uid : String
  nick : String

/-- `on_join`: drop events without a user id, dedup on the user id, then
enqueue. -/
def on_join (ttl now : ℚ) (store : List (String × ℚ)) (e : JoinEvt) :
    List (String × ℚ) × Bool :=
  if e.uid = "" then (store, false)
  else
    let res := EventDeduper.seen ttl now store (makeSig "join" [e.uid])
    if res.1 then (res.2, false) else (res.2, true)

/-- The store containing a natural like fingerprint, for the counterexample. -/
def likeStore : List (String × ℚ) := [(makeSig "like" ["u1"], 1000)]

/-- C9 counterexample: a like event is enqueued unconditionally - even when
the store holds an unexpired fingerprint for it (under the `make_sig` scheme
every other category uses), `on_like` neither consults nor updates the
deduper, so the duplicate is not dropped. -/
theorem C9_counterexample :
    (on_like likeStore ⟨"u1", 50⟩).2 = true ∧
      presentUnexpired 0 likeStore (makeSig "like" ["u1"]) :=
  ⟨rfl, ⟨(makeSig "like" ["u1"], 1000), by simp [likeStore], rfl, by norm_num⟩⟩

/-- C9 (amended): every incoming audience event except likes (comment, gift,
follow, share, subscribe, join) has its fingerprint checked against the
deduplicator before being enqueued, and an event whose fingerprint is present
and unexpired is dropped; Like events alone are enqueued without any
deduplication check. -/
theorem C9_dedup_gate (minLen : ℕ) (ign : String → Bool)
    (globalCd ttl now lastFollow : ℚ) (store : List (String × ℚ)) :
    (∀ e : CommentEvt,
      presentUnexpired now store
        (makeSig "comment" [e.uid, pyLower (pyStrip e.comment)]) →
      (on_comment minLen ign ttl now store e).2 = false) ∧
    (∀ e : GiftEvt,
      presentUnexpired now store
        (makeSig "gift" [e.uid, e.giftName, toString e.repeatCount]) →
      (on_gift ttl now store e).2 = false) ∧
    (∀ e : FollowEvt, presentUnexpired now store (makeSig "follow" [e.uid]) →
      (on_follow globalCd ttl now lastFollow store e).2.2 = false) ∧
    (∀ e : SubscribeEvt, presentUnexpired now store (makeSig "subscribe" [e.uid]) →
      (on_subscribe ttl now store e).2 = false) ∧
    (∀ e : ShareEvt, presentUnexpired now store (makeSig "share" [e.uid]) →
      (on_share ttl now store e).2 = false) ∧
    (∀ e : JoinEvt, presentUnexpired now store (makeSig "join" [e.uid]) →
      (on_join ttl now store e).2 = false) ∧
    (∀ e : LikeEvt, (on_like store e).2 = true ∧ (on_like store e).1 = store) := by
  refine ⟨?_, ?_, ?_, ?_, ?_, ?_, fun e => ⟨rfl, rfl⟩⟩
  · intro e h
    unfold on_comment
    dsimp only
    split_ifs with h1 h2 h3
    · rfl
    · rfl
    · rfl
    · exact absurd (seen_true_of_present h) h3
  · intro e h
    unfold on_gift
    dsimp only
    split_ifs with h1
    · rfl
    · exact absurd (seen_true_of_present h) h1
  · intro e h
    unfold on_follow
    dsimp only
    split_ifs with h1 h2
    · rfl
    · rfl
    · exact absurd (seen_true_of_present h) h2
  · intro e h
    unfold on_subscribe
    dsimp only
    split_ifs with h1
    · rfl
    · exact absurd (seen_true_of_present h) h1
  · intro e h
    unfold on_share
    dsimp only
    split_ifs with h1
    · rfl
    · exact absurd (seen_true_of_present h) h1
  · intro e h
    unfold on_join
    dsimp only
    split_ifs with h1 h2
    · rfl
    · rfl
    · exact absurd (seen_true_of_present h) h2

/-- A store holding unexpired fingerprints of all six checked categories, for
the C9 witness. -/
def gateStore : List (String × ℚ) :=
  [(makeSig "comment" ["u", pyLower (pyStrip "hallo")], 1000),
   (makeSig "gift" ["u", "Rose", toString (1 : ℤ)], 1000),
   (makeSig "follow" ["u"], 1000),
   (makeSig "subscribe" ["u"], 1000),
   (makeSig "share" ["u"], 1000),
   (makeSig "join" ["u"], 1000)]

/-- Witness for C9 at concrete inputs: duplicates of all six checked
categories are dropped at time 0 against `gateStore`, and a like is enqueued
untouched. -/
theorem C9_dedup_gate_witness :
    (presentUnexpired 0 gateStore (makeSig "comment" ["u", pyLower (pyStrip "hallo")]) ∧
      presentUnexpired 0 gateStore (makeSig "gift" ["u", "Rose", toString (1 : ℤ)]) ∧
      presentUnexpired 0 gateStore (makeSig "follow" ["u"]) ∧
      presentUnexpired 0 gateStore (makeSig "subscribe" ["u"]) ∧
      presentUnexpired 0 gateStore (makeSig "share" ["u"]) ∧
      presentUnexpired 0 gateStore (makeSig "join" ["u"])) ∧
    ((on_comment 3 (fun _ => false) 600 0 gateStore ⟨"u", "N", "hallo"⟩).2 = false ∧
      (on_gift 600 0 gateStore ⟨"u", "Rose", 1⟩).2 = false ∧
      (on_follow 6 600 0 0 gateStore ⟨"u"⟩).2.2 = false ∧
      (on_subscribe 600 0 gateStore ⟨"u"⟩).2 = false ∧
      (on_share 600 0 gateStore ⟨"u"⟩).2 = false ∧
      (on_join 600 0 gateStore ⟨"u", "N"⟩).2 = false ∧
      (on_like gateStore ⟨"u", 5⟩).2 = true ∧
      (on_like gateStore ⟨"u", 5⟩).1 = gateStore) := by
  have hp1 : presentUnexpired 0 gateStore
      (makeSig "comment" ["u", pyLower (pyStrip "hallo")]) :=
    ⟨(makeSig "comment" ["u", pyLower (pyStrip "hallo")], 1000),
      by simp [gateStore], rfl, by norm_num⟩
  have hp2 : presentUnexpired 0 gateStore
      (makeSig "gift" ["u", "Rose", toString (1 : ℤ)]) :=
    ⟨(makeSig "gift" ["u", "Rose", toString (1 : ℤ)], 1000),
      by simp [gateStore], rfl, by norm_num⟩
  have hp3 : presentUnexpired 0 gateStore (makeSig "follow" ["u"]) :=
    ⟨(makeSig "follow" ["u"], 1000), by simp [gateStore], rfl, by norm_num⟩
  have hp4 : presentUnexpired 0 gateStore (makeSig "subscribe" ["u"]) :=
    ⟨(makeSig "subscribe" ["u"], 1000), by simp [gateStore], rfl, by norm_num⟩
  have hp5 : presentUnexpired 0 gateStore (makeSig "share" ["u"]) :=
    ⟨(makeSig "share" ["u"], 1000), by simp [gateStore], rfl, by norm_num⟩
  have hp6 : presentUnexpired 0 gateStore (makeSig "join" ["u"]) :=
    ⟨(makeSig "join" ["u"], 1000), by simp [gateStore], rfl, by norm_num⟩
  have thm := C9_dedup_gate 3 (fun _ => false) 6 600 0 0 gateStore
  exact ⟨⟨hp1, hp2, hp3, hp4, hp5, hp6⟩,
    thm.1 ⟨"u", "N", "hallo"⟩ hp1,
    thm.2.1 ⟨"u", "Rose", 1⟩ hp2,
    thm.2.2.1 ⟨"u"⟩ hp3,
    thm.2.2.2.1 ⟨"u"⟩ hp4,
    thm.2.2.2.2.1 ⟨"u"⟩ hp5,
    thm.2.2.2.2.2.1 ⟨"u", "N"⟩ hp6,
    (thm.2.2.2.2.2.2 ⟨"u", 5⟩).1,
    (thm.2.2.2.2.2.2 ⟨"u", 5⟩).2⟩
